import Mathlib

/-!
Shallow embedding of the gosentry resilience library (Go) and verification of
the frozen claims about it.

Modelling conventions:
* Go `error` values are the inductive `GoError`; `nil` errors are `none`.
* Go `context.Context` is `GoCtx`, carrying only the cancellation state
  (`ctx.Err()`); policies in this repository read nothing else from it.
* Go `any` results are a type parameter `α`; `(any, error)` pairs are
  `Option α × Option GoError`.
* Go `time.Duration` and `time.Time` are `Int` nanoseconds; `int64` overflow
  is modelled by `wrap64` wherever the source can overflow (retry delays).
* Go `float64` token counts and clock seconds in the rate limiter are
  modelled over `ℚ` (the quantities the claims exercise are exact).
* `rand.Int63n` is modelled by an oracle `jit : Int → Int` mapping the bound
  to the sample; a non-positive bound makes `rand.Int63n` panic, which is
  modelled by returning `none` from the delay computation.
* Shared mutable state (circuit breaker, token bucket) is passed explicitly;
  each lock-protected critical section of the source becomes one pure state
  transition, and the `Now()` clock reads become explicit time arguments.
-/

set_option autoImplicit false

namespace GoSentry

/-- Go `error` values that occur in this repository: the sentinel errors of
the policies, the two context errors, and opaque operation errors. -/
inductive GoError where
  | canceled
  | deadlineExceeded
  | errCircuitOpen
  | errCircuitHalfOpenBusy
  | errRateLimitExceeded
  | opErr (n : Nat)
deriving DecidableEq, Repr

/-- `context.Context` reduced to what the policies read: `ctx.Err()`. -/
structure GoCtx where
  err : Option GoError
deriving DecidableEq, Repr

/-- `type Handler func(ctx context.Context) (any, error)`. -/
def Handler (α : Type) : Type := GoCtx → Option α × Option GoError

/-- `type Policy func(next Handler) Handler`. -/
def Policy (α : Type) : Type := Handler α → Handler α

/-- `gosentry.Execute`: the Go source iterates `i` from `len(policies)-1`
down to `0`, each step replacing `h` by `policies[i](h)`, then calls `h(ctx)`
once; the downward index loop is the left fold over the reversed list. -/
def Execute {α : Type} (ctx : GoCtx) (handler : Handler α)
    (policies : List (Policy α)) : Option α × Option GoError :=
  (policies.reverse.foldl (fun h p => p h) handler) ctx

end GoSentry

namespace GoSentry

/-- `policies.TimeoutOptions`; `Duration` in nanoseconds. -/
structure TimeoutOptions where
  Duration : Int
deriving DecidableEq, Repr

/-- `policies.DefaultTimeoutOptions`: 5 seconds. -/
def DefaultTimeoutOptions : TimeoutOptions :=
  { Duration := 5000000000 }

/-- `policies.applyTimeoutDefaults`: a zero duration resolves to the default. -/
def applyTimeoutDefaults (options : TimeoutOptions) : TimeoutOptions :=
  if options.Duration = 0 then
    { options with Duration := DefaultTimeoutOptions.Duration }
  else options

/-- `policies.Timeout`. With `Duration < 0` (after defaults) the source
returns the no-op policy `func(next) Handler { return next }` verbatim.
Otherwise the returned handler first checks `ctx.Err()` and then races `next`
against the deadline of a child context. The race itself is concurrent
timing behaviour; in this untimed embedding the wrapped handler is taken to
complete before the deadline, which is the only regime the claims exercise
(the disabled pass-through, the default resolution, and the entry
cancellation check). -/
def Timeout {α : Type} (options : TimeoutOptions) : Policy α :=
  let opts := applyTimeoutDefaults options
  if opts.Duration < 0 then fun next => next
  else fun next => fun ctx =>
    match ctx.err with
    | some e => (none, some e)
    | none => next ctx

end GoSentry

namespace GoSentry

/-- `policies.BackoffStrategy` is a string type in the source. -/
def BackoffFixed : String := "fixed"

/-- The `"linear"` backoff strategy constant. -/
def BackoffLinear : String := "linear"

/-- The `"exponential"` backoff strategy constant. -/
def BackoffExponential : String := "exponential"

/-- `policies.RetryOptions`; durations in nanoseconds. -/
structure RetryOptions where
  MaxAttempts : Int
  InitialDelay : Int
  MaxDelay : Int
  Backoff : String
  Jitter : Bool
deriving DecidableEq, Repr

/-- `policies.DefaultRetryOptions`. -/
def DefaultRetryOptions : RetryOptions :=
  { MaxAttempts := 3
    InitialDelay := 100000000
    MaxDelay := 5000000000
    Backoff := BackoffExponential
    Jitter := true }

/-- `policies.applyDefaults`: each field left at its zero value resolves to
the default. Note the source never touches `Jitter` here. -/
def applyDefaults (options : RetryOptions) : RetryOptions :=
  let options := if options.MaxAttempts = 0 then
    { options with MaxAttempts := DefaultRetryOptions.MaxAttempts } else options
  let options := if options.InitialDelay = 0 then
    { options with InitialDelay := DefaultRetryOptions.InitialDelay } else options
  let options := if options.MaxDelay = 0 then
    { options with MaxDelay := DefaultRetryOptions.MaxDelay } else options
  let options := if options.Backoff = "" then
    { options with Backoff := DefaultRetryOptions.Backoff } else options
  options

/-- Two's-complement wrap-around of Go's 64-bit signed arithmetic. -/
def wrap64 (x : Int) : Int :=
  (x + 2 ^ 63) % 2 ^ 64 - 2 ^ 63

/-- Go's `1 << uint(attempt)` on a 64-bit `int`: shifts of 64 or more give 0,
a shift of 63 wraps to the minimal `int64`. -/
def goShl1 (a : Nat) : Int :=
  if a ≤ 63 then wrap64 (2 ^ a) else 0

/-- The `switch opts.Backoff` of `policies.computeDelay`: the raw
backoff-formula value, in Go's `int64` ns arithmetic. This is exactly the
value the source's jitter step receives (there is no clamp in between). -/
def backoffDelay (attempt : Nat) (opts : RetryOptions) : Int :=
  if opts.Backoff = BackoffFixed then opts.InitialDelay
  else if opts.Backoff = BackoffLinear then
    wrap64 (opts.InitialDelay * wrap64 ((attempt : Int) + 1))
  else if opts.Backoff = BackoffExponential then
    wrap64 (opts.InitialDelay * goShl1 attempt)
  else opts.InitialDelay

/-- `policies.computeDelay`. The jitter sample `rand.Int63n(int64(delay/2))`
is supplied by the oracle `jit` applied to the bound `delay / 2` (Go's
truncating division); `rand.Int63n` panics when its bound is not positive,
modelled by `none`. The final step caps the result at `MaxDelay`. -/
def computeDelay (attempt : Nat) (opts : RetryOptions) (jit : Int → Int) :
    Option Int :=
  let delay := backoffDelay attempt opts
  let jittered :=
    if opts.Jitter then
      if delay.tdiv 2 ≤ 0 then none
      else some (wrap64 (delay + jit (delay.tdiv 2)))
    else some delay
  match jittered with
  | none => none
  | some d => some (if d > opts.MaxDelay then opts.MaxDelay else d)

/-- The retry loop of `policies.Retry`, by recursion on the remaining
iterations of `for attempt := 0; attempt < opts.MaxAttempts; attempt++`.
`h` gives the outcome of the i-th invocation of the wrapped handler (the
test handlers are stateful, counting calls); `calls` is both the number of
invocations made so far and the current value of the loop's `attempt`
variable. The result carries the total invocation count next to the
`(any, error)` pair; `none` is a panic escaping from `computeDelay`.
The context is checked at the top of every iteration; the sleep's
`ctx.Done()` race only matters for a context that becomes cancelled
mid-loop, which this embedding's constant context does not model. -/
def retryAux {α : Type} (opts : RetryOptions) (jit : Int → Int)
    (h : Nat → Option α × Option GoError) (ctx : GoCtx) :
    Nat → Nat → Option GoError → Option (Nat × (Option α × Option GoError))
  | 0, calls, lastErr => some (calls, (none, lastErr))
  | remaining + 1, calls, _lastErr =>
    match ctx.err with
    | some e => some (calls, (none, some e))
    | none =>
      match h calls with
      | (res, none) => some (calls + 1, (res, none))
      | (_, some e) =>
        if remaining = 0 then
          some (calls + 1, (none, some e))
        else
          match computeDelay calls opts jit with
          | none => none
          | some _ => retryAux opts jit h ctx remaining (calls + 1) (some e)

/-- `policies.Retry` (the full implementation with backoff and jitter):
applies the defaults, then runs the loop for `MaxAttempts` iterations. -/
def Retry {α : Type} (options : RetryOptions) (jit : Int → Int)
    (h : Nat → Option α × Option GoError) (ctx : GoCtx) :
    Option (Nat × (Option α × Option GoError)) :=
  let opts := applyDefaults options
  retryAux opts jit h ctx opts.MaxAttempts.toNat 0 none

end GoSentry

namespace GoSentry

/-- C10: `Execute` with an empty policy list returns exactly the base
operation's own (result, error) pair, and with a non-empty list it invokes,
once, the nesting with `policy[0]` outermost through `policy[n-1]` innermost
around the base operation. -/
theorem claim_C10 {α : Type} (ctx : GoCtx) (h : Handler α) :
    Execute ctx h [] = h ctx ∧
    (∀ ps : List (Policy α),
      Execute ctx h ps = (ps.foldr (fun p k => p k) h) ctx) ∧
    (∀ (p : Policy α) (ps : List (Policy α)),
      Execute ctx h (p :: ps) = p (ps.foldr (fun q k => q k) h) ctx) := by
  refine ⟨rfl, ?_, ?_⟩
  · intro ps
    unfold Execute
    rw [List.foldl_reverse]
  · intro p ps
    unfold Execute
    rw [List.foldl_reverse]
    rfl

/-- C9: with `Duration < 0` the Timeout policy is the identity transform on
handlers (no cancellation check, no wrapping at all), and a zero duration is
resolved to the documented 5-second default before the policy is built. -/
theorem claim_C9 :
    (∀ (α : Type) (options : TimeoutOptions), options.Duration < 0 →
      Timeout (α := α) options = fun next => next) ∧
    applyTimeoutDefaults { Duration := 0 } = { Duration := 5000000000 } := by
  constructor
  · intro α options hneg
    have hne : options.Duration ≠ 0 := by omega
    simp [Timeout, applyTimeoutDefaults, hne, hneg]
  · rfl

/-- Witness for C9 at `Duration = -1`. -/
theorem claim_C9_witness :
    Timeout (α := Nat) { Duration := -1 } = (fun next => next) ∧
    applyTimeoutDefaults { Duration := 0 } = { Duration := 5000000000 } :=
  ⟨claim_C9.1 Nat { Duration := -1 } (by decide), claim_C9.2⟩

/-- An integer already inside the signed 64-bit range is unchanged by the
wrap-around. -/
lemma wrap64_eq_self {x : Int} (h1 : -(2 ^ 63) ≤ x) (h2 : x < 2 ^ 63) :
    wrap64 x = x := by
  unfold wrap64
  rw [Int.emod_eq_of_lt (by omega) (by omega)]
  omega

/-- `backoffDelay` on the fixed strategy. -/
lemma backoffDelay_fixed {opts : RetryOptions} (a : Nat)
    (hb : opts.Backoff = BackoffFixed) :
    backoffDelay a opts = opts.InitialDelay := by
  simp [backoffDelay, hb]

/-- `backoffDelay` on the linear strategy. -/
lemma backoffDelay_linear {opts : RetryOptions} (a : Nat)
    (hb : opts.Backoff = BackoffLinear) :
    backoffDelay a opts = wrap64 (opts.InitialDelay * wrap64 ((a : Int) + 1)) := by
  simp [backoffDelay, hb, BackoffFixed, BackoffLinear]

/-- `backoffDelay` on the exponential strategy. -/
lemma backoffDelay_exponential {opts : RetryOptions} (a : Nat)
    (hb : opts.Backoff = BackoffExponential) :
    backoffDelay a opts = wrap64 (opts.InitialDelay * goShl1 a) := by
  simp [backoffDelay, hb, BackoffFixed, BackoffLinear, BackoffExponential]

/-- With jitter disabled, `computeDelay` is the backoff formula capped once
at `MaxDelay`. -/
lemma computeDelay_noJitter {opts : RetryOptions} (a : Nat) (jit : Int → Int)
    (hj : opts.Jitter = false) :
    computeDelay a opts jit =
      some (if backoffDelay a opts > opts.MaxDelay then opts.MaxDelay
            else backoffDelay a opts) := by
  simp [computeDelay, hj]

/-- With jitter enabled, `computeDelay` panics on a non-positive jitter
bound and otherwise adds the sample to the raw formula value before the
single cap at `MaxDelay`. -/
lemma computeDelay_jitter {opts : RetryOptions} (a : Nat) (jit : Int → Int)
    (hj : opts.Jitter = true) :
    computeDelay a opts jit =
      if (backoffDelay a opts).tdiv 2 ≤ 0 then none
      else
        some (if wrap64 (backoffDelay a opts + jit ((backoffDelay a opts).tdiv 2))
                  > opts.MaxDelay then opts.MaxDelay
              else wrap64 (backoffDelay a opts + jit ((backoffDelay a opts).tdiv 2))) := by
  by_cases hc : (backoffDelay a opts).tdiv 2 ≤ 0
  · simp [computeDelay, hj, hc]
  · simp [computeDelay, hj, hc]

end GoSentry

namespace GoSentry

/-- Concrete options for the C4 counterexample: a configuration accepted by
`applyDefaults` unchanged, whose 64th exponential delay overflows `int64`. -/
def retryOptsC4 : RetryOptions :=
  { MaxAttempts := 100
    InitialDelay := 1
    MaxDelay := 5000000000
    Backoff := BackoffExponential
    Jitter := false }

/-- C4 counterexample: with `InitialDelay = 1` ns, exponential backoff and
jitter disabled — a configuration `applyDefaults` accepts unchanged, whose
attempt index 63 the loop reaches since `MaxAttempts = 100` — Go's
`InitialDelay * (1 << 63)` wraps to the negative minimal `int64`, so the
computed delay is `-(2^63)` and not `initialDelay × 2^63`. -/
theorem claim_C4_cex :
    applyDefaults retryOptsC4 = retryOptsC4 ∧
    computeDelay 63 retryOptsC4 (fun _ => 0) = some (-(2 ^ 63)) ∧
    retryOptsC4.InitialDelay * 2 ^ 63 = 2 ^ 63 ∧
    computeDelay 63 retryOptsC4 (fun _ => 0)
      ≠ some (retryOptsC4.InitialDelay * 2 ^ 63) := by
  refine ⟨by decide, by decide, by decide, by decide⟩

/-- C4 (amended): with jitter disabled the delay before attempt `a+1` equals
the backoff formula — `initialDelay` fixed, `initialDelay × (a+1)` linear,
`initialDelay × 2^a` exponential — capped at `maxDelay`, provided the formula
value fits in a signed 64-bit integer (without that proviso Go's arithmetic
wraps, see the counterexample); and the returned delay never exceeds
`maxDelay` for any configuration. -/
theorem claim_C4_amended (opts : RetryOptions) (jit : Int → Int) (a : Nat)
    (hj : opts.Jitter = false) (h0 : 0 ≤ opts.InitialDelay) :
    (opts.Backoff = BackoffFixed →
      computeDelay a opts jit =
        some (if opts.InitialDelay > opts.MaxDelay then opts.MaxDelay
              else opts.InitialDelay)) ∧
    (opts.Backoff = BackoffLinear → (a : Int) + 1 < 2 ^ 63 →
      opts.InitialDelay * ((a : Int) + 1) < 2 ^ 63 →
      computeDelay a opts jit =
        some (if opts.InitialDelay * ((a : Int) + 1) > opts.MaxDelay then
                opts.MaxDelay
              else opts.InitialDelay * ((a : Int) + 1))) ∧
    (opts.Backoff = BackoffExponential → a ≤ 62 →
      opts.InitialDelay * 2 ^ a < 2 ^ 63 →
      computeDelay a opts jit =
        some (if opts.InitialDelay * 2 ^ a > opts.MaxDelay then opts.MaxDelay
              else opts.InitialDelay * 2 ^ a)) ∧
    (∀ d : Int, computeDelay a opts jit = some d → d ≤ opts.MaxDelay) := by
  refine ⟨?_, ?_, ?_, ?_⟩
  · intro hb
    rw [computeDelay_noJitter a jit hj, backoffDelay_fixed a hb]
  · intro hb hfit1 hfit2
    have hnn : (0 : Int) ≤ opts.InitialDelay * ((a : Int) + 1) :=
      mul_nonneg h0 (by positivity)
    have ha1 : wrap64 ((a : Int) + 1) = (a : Int) + 1 :=
      wrap64_eq_self (by omega) hfit1
    have hprod : wrap64 (opts.InitialDelay * ((a : Int) + 1))
        = opts.InitialDelay * ((a : Int) + 1) :=
      wrap64_eq_self (by omega) hfit2
    rw [computeDelay_noJitter a jit hj, backoffDelay_linear a hb, ha1, hprod]
  · intro hb ha hfit
    have hpow : (2 : Int) ^ a < 2 ^ 63 := by
      calc (2 : Int) ^ a ≤ 2 ^ 62 := pow_le_pow_right₀ (by norm_num) (by omega)
        _ < 2 ^ 63 := by norm_num
    have hpnn : (0 : Int) ≤ (2 : Int) ^ a := by positivity
    have hsh : goShl1 a = 2 ^ a := by
      unfold goShl1
      rw [if_pos (by omega)]
      exact wrap64_eq_self (by omega) hpow
    have hnn : (0 : Int) ≤ opts.InitialDelay * (2 : Int) ^ a :=
      mul_nonneg h0 hpnn
    have hprod : wrap64 (opts.InitialDelay * (2 : Int) ^ a)
        = opts.InitialDelay * 2 ^ a :=
      wrap64_eq_self (by omega) hfit
    rw [computeDelay_noJitter a jit hj, backoffDelay_exponential a hb, hsh, hprod]
  · intro d hd
    rw [computeDelay_noJitter a jit hj] at hd
    injection hd with hd
    subst hd
    split <;> omega

/-- Witness for the amended C4 at a concrete exponential configuration. -/
theorem claim_C4_witness :
    computeDelay 3 retryOptsC4 (fun _ => 0)
      = some (if retryOptsC4.InitialDelay * 2 ^ 3 > retryOptsC4.MaxDelay then
                retryOptsC4.MaxDelay
              else retryOptsC4.InitialDelay * 2 ^ 3) :=
  (claim_C4_amended retryOptsC4 (fun _ => 0) 3 (by decide) (by decide)).2.2.1
    (by decide) (by decide) (by decide)

/-- Concrete options for the C5 counterexample: a negative `InitialDelay`
is accepted by `applyDefaults` unchanged. -/
def retryOptsC5 : RetryOptions :=
  { MaxAttempts := 3
    InitialDelay := -100
    MaxDelay := 5000000000
    Backoff := BackoffFixed
    Jitter := false }

/-- Concrete options for the second half of the C5 counterexample: an
exponential configuration whose attempt-3 formula value 800ms exceeds
`MaxDelay = 150ms`. -/
def retryOptsC5b : RetryOptions :=
  { MaxAttempts := 5
    InitialDelay := 100000000
    MaxDelay := 150000000
    Backoff := BackoffExponential
    Jitter := true }

/-- C5 counterexample. First: the computed delay is never clamped below 0 —
with an accepted configuration whose `InitialDelay` is `-100` ns, the
returned delay is `-100`, outside `[0, maxDelay]`, so no `[0, maxDelay]`
clamp exists anywhere in the pipeline. Second: the value handed to the
jitter step (`backoffDelay`, by the definition of `computeDelay`) is the raw
formula value: at attempt 3 of `retryOptsC5b` it is 800000000 ns, above
`MaxDelay = 150000000` ns, so the pre-jitter delay is not in `[0, maxDelay]`
either. -/
theorem claim_C5_cex :
    (applyDefaults retryOptsC5 = retryOptsC5 ∧
      computeDelay 0 retryOptsC5 (fun _ => 0) = some (-100) ∧
      ¬ (0 ≤ (-100 : Int) ∧ (-100 : Int) ≤ retryOptsC5.MaxDelay)) ∧
    (applyDefaults retryOptsC5b = retryOptsC5b ∧
      backoffDelay 3 retryOptsC5b = 800000000 ∧
      ¬ (0 ≤ (800000000 : Int) ∧ (800000000 : Int) ≤ retryOptsC5b.MaxDelay)) := by
  refine ⟨⟨by decide, by decide, by decide⟩, ⟨by decide, by decide, by decide⟩⟩

/-- C5 (amended): the backoff-formula value is passed to the jitter step
unclamped, and the only clamp in the delay computation is the final cap at
`maxDelay`; whenever the computation returns a delay, that delay is at most
`maxDelay`, but it can be negative and the pre-jitter value can exceed
`maxDelay` (see the counterexample). -/
theorem claim_C5_amended (a : Nat) (opts : RetryOptions) (jit : Int → Int)
    (d : Int) (hd : computeDelay a opts jit = some d) : d ≤ opts.MaxDelay := by
  cases hje : opts.Jitter
  · rw [computeDelay_noJitter a jit hje] at hd
    injection hd with hd
    subst hd
    split <;> omega
  · rw [computeDelay_jitter a jit hje] at hd
    split at hd
    · exact absurd hd (by simp)
    · injection hd with hd
      subst hd
      split <;> omega

/-- Witness for the amended C5 at the concrete negative-delay input. -/
theorem claim_C5_witness :
    computeDelay 0 retryOptsC5 (fun _ => 0) = some (-100) ∧
    (-100 : Int) ≤ retryOptsC5.MaxDelay :=
  ⟨by decide, claim_C5_amended 0 retryOptsC5 (fun _ => 0) (-100) (by decide)⟩

/-- Concrete options for C6: accepted by `applyDefaults` unchanged, jitter
enabled, `InitialDelay = 1` ns so that `delay / 2` truncates to zero. -/
def retryOptsC6 : RetryOptions :=
  { MaxAttempts := 3
    InitialDelay := 1
    MaxDelay := 5000000000
    Backoff := BackoffFixed
    Jitter := true }

/-- C6: the configuration `retryOptsC6` (jitter enabled, fixed backoff,
`InitialDelay = 1` ns) is accepted by `applyDefaults` without normalization,
yet the delay computation panics — `rand.Int63n` requires a strictly
positive argument and receives `1 / 2 = 0` — so computing a retry delay is
not total over the accepted configurations, and the panic escapes from the
whole `Retry` call as soon as a second attempt is needed. -/
theorem claim_C6 :
    applyDefaults retryOptsC6 = retryOptsC6 ∧
    (∀ jit : Int → Int, computeDelay 0 retryOptsC6 jit = none) ∧
    (∀ jit : Int → Int,
      Retry (α := Unit) retryOptsC6 jit (fun i => (none, some (.opErr i)))
        ⟨none⟩ = none) :=
  ⟨by decide, fun _ => rfl, fun _ => rfl⟩

end GoSentry

namespace GoSentry

/-- The retry loop on an always-failing handler: starting with `m + 1`
iterations left at invocation count `calls`, with the context uncancelled
and every needed delay computation succeeding, the loop makes `m + 1`
further invocations and surfaces the error of the last one. -/
lemma retryAux_allFail {α : Type} (opts : RetryOptions) (jit : Int → Int)
    (h : Nat → Option α × Option GoError) (ctx : GoCtx) (hctx : ctx.err = none)
    (e : Nat → GoError) (hfail : ∀ i, (h i).2 = some (e i)) :
    ∀ (m calls : Nat) (lastErr : Option GoError),
      (∀ a, calls ≤ a → a < calls + m → (computeDelay a opts jit).isSome = true) →
      retryAux opts jit h ctx (m + 1) calls lastErr
        = some (calls + m + 1, (none, some (e (calls + m)))) := by
  intro m
  induction m with
  | zero =>
    intro calls lastErr _
    have hsplit : h calls = ((h calls).1, some (e calls)) := by
      conv_lhs => rw [← Prod.mk.eta (p := h calls)]
      rw [hfail calls]
    rw [retryAux, hctx, hsplit]
    simp
  | succ m ih =>
    intro calls lastErr hdel
    have hsplit : h calls = ((h calls).1, some (e calls)) := by
      conv_lhs => rw [← Prod.mk.eta (p := h calls)]
      rw [hfail calls]
    have hsome : (computeDelay calls opts jit).isSome = true :=
      hdel calls le_rfl (by omega)
    obtain ⟨d, hd⟩ := Option.isSome_iff_exists.mp hsome
    have hrec := ih (calls + 1) (some (e calls))
      (fun a ha1 ha2 => hdel a (by omega) (by omega))
    have harith1 : calls + 1 + m = calls + (m + 1) := by omega
    rw [harith1] at hrec
    rw [retryAux, hctx, hsplit, hd]
    simp [hrec]

/-- C3: for every `maxAttempts = n ≥ 1` and every operation failing on each
invocation, with an uncancelled context (and delay computations that do not
panic, cf. C6), the Retry policy invokes the operation exactly `n` times and
returns the `n`-th invocation's own error as-is — no synthetic
retries-exhausted error. -/
theorem claim_C3 {α : Type} (options : RetryOptions) (jit : Int → Int)
    (ctx : GoCtx) (hctx : ctx.err = none) (n : Nat) (hn : 1 ≤ n)
    (hN : (applyDefaults options).MaxAttempts = (n : Int))
    (h : Nat → Option α × Option GoError) (e : Nat → GoError)
    (hfail : ∀ i, (h i).2 = some (e i))
    (hdelay : ∀ a, a < n - 1 →
      (computeDelay a (applyDefaults options) jit).isSome = true) :
    Retry options jit h ctx = some (n, (none, some (e (n - 1)))) := by
  show retryAux (applyDefaults options) jit h ctx
    (applyDefaults options).MaxAttempts.toNat 0 none
      = some (n, (none, some (e (n - 1))))
  rw [hN, Int.toNat_natCast]
  obtain ⟨m, rfl⟩ : ∃ m, n = m + 1 := ⟨n - 1, by omega⟩
  have hrec := retryAux_allFail (applyDefaults options) jit h ctx hctx e hfail m 0
    none (fun a ha1 ha2 => hdelay a (by omega))
  simpa using hrec

/-- Concrete options for the C3 witness. -/
def retryOptsC3 : RetryOptions :=
  { MaxAttempts := 3
    InitialDelay := 10000000
    MaxDelay := 5000000000
    Backoff := BackoffFixed
    Jitter := false }

/-- Witness for C3: three attempts, always failing, surfaces the third
invocation's error. -/
theorem claim_C3_witness :
    Retry retryOptsC3 (fun _ => 0)
      (fun i => ((none : Option Nat), some (.opErr i))) ⟨none⟩
      = some (3, (none, some (.opErr 2))) :=
  claim_C3 retryOptsC3 (fun _ => 0) ⟨none⟩ rfl 3 (by decide) (by decide)
    (fun i => (none, some (.opErr i))) (fun i => .opErr i) (fun _ => rfl)
    (by decide)

end GoSentry

namespace GoSentry

/-- `policies.CircuitBreakerState` (a string type in the source; its three
constants become constructors — `open` is a Lean keyword, hence `opened`). -/
inductive CircuitBreakerState where
  | closed
  | opened
  | halfOpen
deriving DecidableEq, Repr

/-- `policies.CircuitBreakerOptions`; `OpenTimeout` in nanoseconds. The
`OnStateChange` observer is a side effect that changes no breaker state and
is omitted; the `Now` clock becomes explicit time arguments; a nil
`ShouldTrip` defaults to `err != nil`, which on the non-nil errors it is
ever applied to is the constant-true predicate. -/
structure CircuitBreakerOptions where
  FailureThreshold : Int
  SuccessThreshold : Int
  OpenTimeout : Int
  ShouldTrip : GoError → Bool

/-- `policies.applyCircuitBreakerDefaults` on the numeric fields: zero
values resolve to `FailureThreshold = 5`, `SuccessThreshold = 1`,
`OpenTimeout = 30s`. -/
def applyCircuitBreakerDefaults (options : CircuitBreakerOptions) :
    CircuitBreakerOptions :=
  let options := if options.FailureThreshold = 0 then
    { options with FailureThreshold := 5 } else options
  let options := if options.SuccessThreshold = 0 then
    { options with SuccessThreshold := 1 } else options
  let options := if options.OpenTimeout = 0 then
    { options with OpenTimeout := 30000000000 } else options
  options

/-- The mutable fields of the `circuitBreaker` struct. -/
structure CBState where
  state : CircuitBreakerState
  openedAt : Int
  failures : Int
  halfSuccess : Int
  halfInFlight : Bool
deriving DecidableEq, Repr

/-- `policies.newCircuitBreaker`: the initial breaker state (Closed, all
counters at their zero values). -/
def newCircuitBreaker : CBState :=
  { state := .closed, openedAt := 0, failures := 0, halfSuccess := 0,
    halfInFlight := false }

/-- `circuitBreaker.openLocked`: reset all counters, record the opening
time, transition to Open. -/
def openLocked (now : Int) (c : CBState) : CBState :=
  { c with failures := 0, halfSuccess := 0, halfInFlight := false,
           openedAt := now, state := .opened }

/-- `circuitBreaker.beforeCall`: one critical section deciding admission at
time `now`; returns the updated state and the rejection error, if any
(`none` = admitted). In the Open state, an elapsed `OpenTimeout` first
transitions to HalfOpen and then falls through to the half-open admission
check. The defensive `default` branch of the source's switch is unreachable
over the three-constructor state type. -/
def beforeCall (opts : CircuitBreakerOptions) (ctx : GoCtx) (now : Int)
    (c : CBState) : CBState × Option GoError :=
  match ctx.err with
  | some e => (c, some e)
  | none =>
    match c.state with
    | .closed => (c, none)
    | .opened =>
      if now - c.openedAt ≥ opts.OpenTimeout then
        let c := { c with state := CircuitBreakerState.halfOpen }
        if c.halfInFlight then (c, some .errCircuitHalfOpenBusy)
        else ({ c with halfInFlight := true }, none)
      else (c, some .errCircuitOpen)
    | .halfOpen =>
      if c.halfInFlight then (c, some .errCircuitHalfOpenBusy)
      else ({ c with halfInFlight := true }, none)

/-- `circuitBreaker.afterCall`: one critical section recording the
completed call's error at time `now` (the source re-reads the clock inside
`openLocked`). -/
def afterCall (opts : CircuitBreakerOptions) (err : Option GoError)
    (now : Int) (c : CBState) : CBState :=
  let c := if c.state = CircuitBreakerState.halfOpen then
    { c with halfInFlight := false } else c
  match err with
  | none =>
    match c.state with
    | .closed => { c with failures := 0 }
    | .halfOpen =>
      let c := { c with halfSuccess := c.halfSuccess + 1 }
      if c.halfSuccess ≥ opts.SuccessThreshold then
        { c with failures := 0, halfSuccess := 0,
                 state := CircuitBreakerState.closed }
      else c
    | .opened => c
  | some e =>
    if ¬ opts.ShouldTrip e then c
    else
      match c.state with
      | .closed =>
        let c := { c with failures := c.failures + 1 }
        if c.failures ≥ opts.FailureThreshold then openLocked now c else c
      | .halfOpen => openLocked now c
      | .opened => c

/-- One invocation of the handler returned by `policies.CircuitBreaker`
(after `applyCircuitBreakerDefaults`): the entry `ctx.Err()` check, then
`beforeCall` at time `nowBefore`, then — when admitted — the wrapped
handler and `afterCall` at time `nowAfter`. Returns the breaker state, the
`(any, error)` outcome, and whether the wrapped operation was invoked. -/
def CircuitBreakerCall {α : Type} (opts : CircuitBreakerOptions) (c : CBState)
    (ctx : GoCtx) (h : Handler α) (nowBefore nowAfter : Int) :
    CBState × (Option α × Option GoError) × Bool :=
  match ctx.err with
  | some e => (c, (none, some e), false)
  | none =>
    match beforeCall opts ctx nowBefore c with
    | (c2, some e) => (c2, (none, some e), false)
    | (c2, none) =>
      let out := h ctx
      (afterCall opts out.2 nowAfter c2, out, true)

/-- A handler that fails with the given error. -/
def failHandler (e : GoError) : Handler Unit := fun _ => (none, some e)

/-- A sequence of breaker-wrapped calls, each failing with its own error:
each list entry carries the admission time, the recording time and the
error of one call. -/
def cbFailSeq (opts : CircuitBreakerOptions) (ctx : GoCtx)
    (evs : List (Int × Int × GoError)) (c : CBState) : CBState :=
  evs.foldl
    (fun c ev => (CircuitBreakerCall opts c ctx (failHandler ev.2.2) ev.1 ev.2.1).1)
    c

/-- One qualifying failure from the Closed state: the failure counter
increments, and the breaker opens at the recording time exactly when the
incremented counter reaches `FailureThreshold`. -/
lemma cbFailStep_closed (opts : CircuitBreakerOptions) (ctx : GoCtx)
    (hctx : ctx.err = none) (c : CBState)
    (hc : c.state = CircuitBreakerState.closed) (e : GoError)
    (htrip : opts.ShouldTrip e = true) (tB tA : Int) :
    (CircuitBreakerCall opts c ctx (failHandler e) tB tA).1 =
      if c.failures + 1 ≥ opts.FailureThreshold then
        openLocked tA { c with failures := c.failures + 1 }
      else { c with failures := c.failures + 1 } := by
  simp [CircuitBreakerCall, beforeCall, afterCall, failHandler, hctx, hc, htrip]

/-- Folding fewer qualifying failures than the remaining headroom keeps the
breaker Closed, adding one to the failure counter per call. -/
lemma cbFailSeq_closed (opts : CircuitBreakerOptions) (ctx : GoCtx)
    (hctx : ctx.err = none) :
    ∀ (evs : List (Int × Int × GoError)),
      (∀ ev ∈ evs, opts.ShouldTrip ev.2.2 = true) →
      ∀ c : CBState, c.state = CircuitBreakerState.closed →
        c.failures + evs.length < opts.FailureThreshold →
        cbFailSeq opts ctx evs c = { c with failures := c.failures + evs.length } := by
  intro evs
  induction evs with
  | nil =>
    intro _ c hc _
    simp [cbFailSeq]
  | cons ev evs ih =>
    intro htrip c hc hlt
    have hstep := cbFailStep_closed opts ctx hctx c hc ev.2.2
      (htrip ev (by simp)) ev.1 ev.2.1
    have hnotyet : ¬ c.failures + 1 ≥ opts.FailureThreshold := by
      simp only [List.length_cons] at hlt
      push_cast at hlt
      omega
    rw [if_neg hnotyet] at hstep
    have hrec := ih (fun x hx => htrip x (by simp [hx]))
      { c with failures := c.failures + 1 } hc
      (by simp only [List.length_cons] at hlt; push_cast at hlt ⊢; omega)
    calc cbFailSeq opts ctx (ev :: evs) c
        = cbFailSeq opts ctx evs
            (CircuitBreakerCall opts c ctx (failHandler ev.2.2) ev.1 ev.2.1).1 := rfl
      _ = cbFailSeq opts ctx evs { c with failures := c.failures + 1 } := by
          rw [hstep]
      _ = { c with failures := c.failures + (ev :: evs).length } := by
          rw [hrec]
          simp only [List.length_cons]
          push_cast
          ring_nf

/-- A call against an Open breaker before `OpenTimeout` has elapsed is
rejected with the circuit-open sentinel, without invoking the operation and
without changing the breaker state. -/
lemma cbCall_openRejects {α : Type} (opts : CircuitBreakerOptions)
    (c : CBState) (ctx : GoCtx) (h : Handler α) (tB tA : Int)
    (hctx : ctx.err = none) (hst : c.state = CircuitBreakerState.opened)
    (hlt : tB - c.openedAt < opts.OpenTimeout) :
    CircuitBreakerCall opts c ctx h tB tA
      = (c, (none, some GoError.errCircuitOpen), false) := by
  have hnot : ¬ tB - c.openedAt ≥ opts.OpenTimeout := by omega
  simp [CircuitBreakerCall, beforeCall, hctx, hst, hnot]

/-- C1: from the initial Closed state, `FailureThreshold ≥ 1` consecutive
qualifying failures — and not one fewer — transition the breaker to Open
with both counters reset, and thereafter every call arriving before
`OpenTimeout` has elapsed since the opening time is rejected with the
circuit-open sentinel, without invoking the wrapped operation and without
changing the breaker state. -/
theorem claim_C1 {α : Type} (opts : CircuitBreakerOptions) (ctx : GoCtx)
    (hctx : ctx.err = none) (hk : 1 ≤ opts.FailureThreshold)
    (evs : List (Int × Int × GoError))
    (hlen : (evs.length : Int) = opts.FailureThreshold)
    (htrip : ∀ ev ∈ evs, opts.ShouldTrip ev.2.2 = true) :
    (∀ j : Nat, (j : Int) < opts.FailureThreshold →
      (cbFailSeq opts ctx (evs.take j) newCircuitBreaker).state
          = CircuitBreakerState.closed ∧
      (cbFailSeq opts ctx (evs.take j) newCircuitBreaker).failures = (j : Int)) ∧
    (cbFailSeq opts ctx evs newCircuitBreaker).state
        = CircuitBreakerState.opened ∧
    (cbFailSeq opts ctx evs newCircuitBreaker).failures = 0 ∧
    (cbFailSeq opts ctx evs newCircuitBreaker).halfSuccess = 0 ∧
    (∀ (tB tA : Int) (h : Handler α),
      tB - (cbFailSeq opts ctx evs newCircuitBreaker).openedAt
          < opts.OpenTimeout →
      CircuitBreakerCall opts (cbFailSeq opts ctx evs newCircuitBreaker)
          ctx h tB tA
        = (cbFailSeq opts ctx evs newCircuitBreaker,
           (none, some GoError.errCircuitOpen), false)) := by
  have hne : evs ≠ [] := by
    intro hnil
    rw [hnil] at hlen
    simp at hlen
    omega
  have hpref : ∀ j : Nat, (j : Int) < opts.FailureThreshold →
      cbFailSeq opts ctx (evs.take j) newCircuitBreaker
        = { newCircuitBreaker with failures := (j : Int) } := by
    intro j hj
    have hjlen : j ≤ evs.length := by omega
    have hlenj : (evs.take j).length = j := by
      rw [List.length_take]
      omega
    have := cbFailSeq_closed opts ctx hctx (evs.take j)
      (fun x hx => htrip x (List.take_subset j evs hx))
      newCircuitBreaker rfl
      (by rw [hlenj]; simpa [newCircuitBreaker] using hj)
    rw [hlenj] at this
    simpa [newCircuitBreaker] using this
  have hsplit : evs.dropLast ++ [evs.getLast hne] = evs :=
    List.dropLast_append_getLast hne
  have hdroplen : (evs.dropLast.length : Int) = opts.FailureThreshold - 1 := by
    rw [List.length_dropLast]
    omega
  have hdrop : cbFailSeq opts ctx evs.dropLast newCircuitBreaker
      = { newCircuitBreaker with failures := opts.FailureThreshold - 1 } := by
    have := cbFailSeq_closed opts ctx hctx evs.dropLast
      (fun x hx => htrip x (List.dropLast_subset evs hx))
      newCircuitBreaker rfl
      (by rw [hdroplen]; simp [newCircuitBreaker])
    rw [hdroplen] at this
    simpa [newCircuitBreaker] using this
  have hfinal : cbFailSeq opts ctx evs newCircuitBreaker
      = { state := CircuitBreakerState.opened,
          openedAt := (evs.getLast hne).2.1, failures := 0, halfSuccess := 0,
          halfInFlight := false } := by
    conv_lhs => rw [← hsplit]
    rw [show cbFailSeq opts ctx (evs.dropLast ++ [evs.getLast hne]) newCircuitBreaker
        = cbFailSeq opts ctx [evs.getLast hne]
            (cbFailSeq opts ctx evs.dropLast newCircuitBreaker) from
      List.foldl_append _ _ _ _]
    rw [hdrop]
    have hstep := cbFailStep_closed opts ctx hctx
      { newCircuitBreaker with failures := opts.FailureThreshold - 1 } rfl
      (evs.getLast hne).2.2
      (htrip _ (List.getLast_mem hne)) (evs.getLast hne).1 (evs.getLast hne).2.1
    rw [if_pos (by simp [newCircuitBreaker])] at hstep
    calc cbFailSeq opts ctx [evs.getLast hne]
          { newCircuitBreaker with failures := opts.FailureThreshold - 1 }
        = (CircuitBreakerCall opts
            { newCircuitBreaker with failures := opts.FailureThreshold - 1 }
            ctx (failHandler (evs.getLast hne).2.2)
            (evs.getLast hne).1 (evs.getLast hne).2.1).1 := rfl
      _ = _ := by rw [hstep]; simp [openLocked, newCircuitBreaker]
  refine ⟨?_, ?_, ?_, ?_, ?_⟩
  · intro j hj
    rw [hpref j hj]
    exact ⟨rfl, rfl⟩
  · rw [hfinal]
  · rw [hfinal]
  · rw [hfinal]
  · intro tB tA h hlt
    exact cbCall_openRejects opts _ ctx h tB tA hctx (by rw [hfinal]) hlt

/-- Concrete options for the C1 witness: threshold 2, everything trips. -/
def cbOptsC1 : CircuitBreakerOptions :=
  { FailureThreshold := 2, SuccessThreshold := 1, OpenTimeout := 100,
    ShouldTrip := fun _ => true }

/-- Two qualifying failures for the C1 witness. -/
def cbEvsC1 : List (Int × Int × GoError) :=
  [(0, 0, .opErr 0), (1, 1, .opErr 1)]

/-- Witness for C1: two failures open the breaker and a call at time 5
(< openTimeout 100 after opening at time 1) is rejected. -/
theorem claim_C1_witness :
    (cbFailSeq cbOptsC1 ⟨none⟩ cbEvsC1 newCircuitBreaker).state
        = CircuitBreakerState.opened ∧
    (cbFailSeq cbOptsC1 ⟨none⟩ cbEvsC1 newCircuitBreaker).failures = 0 ∧
    CircuitBreakerCall cbOptsC1
        (cbFailSeq cbOptsC1 ⟨none⟩ cbEvsC1 newCircuitBreaker)
        ⟨none⟩ (failHandler (.opErr 9)) 5 6
      = (cbFailSeq cbOptsC1 ⟨none⟩ cbEvsC1 newCircuitBreaker,
         (none, some GoError.errCircuitOpen), false) := by
  have hmain := claim_C1 (α := Unit) cbOptsC1 ⟨none⟩ rfl (by decide) cbEvsC1
    (by decide) (fun ev _ => rfl)
  exact ⟨hmain.2.1, hmain.2.2.1,
    hmain.2.2.2.2 5 6 (failHandler (.opErr 9)) (by decide)⟩

/-- C2: in the HalfOpen state — (1) while a trial is in flight every other
call is rejected with the half-open-busy sentinel, without invoking the
operation and without changing any breaker state; (2) a completed trial
whose error qualifies per the trip-predicate reopens the breaker
immediately, for every `SuccessThreshold`, resetting both counters and
recording the new opening time; (3) a successful trial increments the
persisted half-open success counter, and resets everything and closes the
breaker exactly when the incremented counter reaches `SuccessThreshold`;
(4) with no trial in flight the next sequential call is admitted as the
trial. -/
theorem claim_C2 {α : Type} (opts : CircuitBreakerOptions) (ctx : GoCtx)
    (hctx : ctx.err = none) (c : CBState)
    (hst : c.state = CircuitBreakerState.halfOpen) :
    (c.halfInFlight = true → ∀ (h : Handler α) (tB tA : Int),
      CircuitBreakerCall opts c ctx h tB tA
        = (c, (none, some GoError.errCircuitHalfOpenBusy), false)) ∧
    (∀ (e : GoError) (tA : Int), opts.ShouldTrip e = true →
      afterCall opts (some e) tA c
        = { state := CircuitBreakerState.opened, openedAt := tA,
            failures := 0, halfSuccess := 0, halfInFlight := false }) ∧
    (∀ tA : Int, afterCall opts none tA c =
      if c.halfSuccess + 1 ≥ opts.SuccessThreshold then
        { c with state := CircuitBreakerState.closed, failures := 0,
                 halfSuccess := 0, halfInFlight := false }
      else { c with halfSuccess := c.halfSuccess + 1,
                    halfInFlight := false }) ∧
    (c.halfInFlight = false → ∀ tB : Int,
      beforeCall opts ctx tB c = ({ c with halfInFlight := true }, none)) := by
  refine ⟨?_, ?_, ?_, ?_⟩
  · intro hfl h tB tA
    simp [CircuitBreakerCall, beforeCall, hctx, hst, hfl]
  · intro e tA htrip
    simp [afterCall, openLocked, hst, htrip]
  · intro tA
    by_cases hS : c.halfSuccess + 1 ≥ opts.SuccessThreshold
    · simp [afterCall, hst, hS]
    · simp [afterCall, hst, hS]
  · intro hfl tB
    simp [beforeCall, hctx, hst, hfl]

/-- Concrete options for the C2 witness. -/
def cbOptsC2 : CircuitBreakerOptions :=
  { FailureThreshold := 3, SuccessThreshold := 2, OpenTimeout := 100,
    ShouldTrip := fun _ => true }

/-- A HalfOpen state with the trial in flight. -/
def cbHalfBusy : CBState :=
  { state := .halfOpen, openedAt := 10, failures := 0, halfSuccess := 0,
    halfInFlight := true }

/-- A HalfOpen state with no trial in flight. -/
def cbHalfIdle : CBState :=
  { state := .halfOpen, openedAt := 10, failures := 0, halfSuccess := 0,
    halfInFlight := false }

/-- Witness for C2 at concrete HalfOpen states. -/
theorem claim_C2_witness :
    (CircuitBreakerCall (α := Unit) cbOptsC2 cbHalfBusy ⟨none⟩
        (failHandler (.opErr 0)) 3 4
      = (cbHalfBusy, (none, some GoError.errCircuitHalfOpenBusy), false)) ∧
    (afterCall cbOptsC2 (some (.opErr 1)) 7 cbHalfBusy
      = { state := CircuitBreakerState.opened, openedAt := 7, failures := 0,
          halfSuccess := 0, halfInFlight := false }) ∧
    (afterCall cbOptsC2 none 8 cbHalfBusy =
      if cbHalfBusy.halfSuccess + 1 ≥ cbOptsC2.SuccessThreshold then
        { cbHalfBusy with state := CircuitBreakerState.closed, failures := 0,
                          halfSuccess := 0, halfInFlight := false }
      else { cbHalfBusy with halfSuccess := cbHalfBusy.halfSuccess + 1,
                             halfInFlight := false }) ∧
    (beforeCall cbOptsC2 ⟨none⟩ 9 cbHalfIdle
      = ({ cbHalfIdle with halfInFlight := true }, none)) := by
  have h1 := claim_C2 (α := Unit) cbOptsC2 ⟨none⟩ rfl cbHalfBusy rfl
  have h2 := claim_C2 (α := Unit) cbOptsC2 ⟨none⟩ rfl cbHalfIdle rfl
  exact ⟨h1.1 rfl (failHandler (.opErr 0)) 3 4, h1.2.1 (.opErr 1) 7 rfl,
    h1.2.2.1 8, h2.2.2.2 rfl 9⟩

end GoSentry

namespace GoSentry

/-- `policies.RateLimitOptions`. `Rate` is a Go `float64` (tokens per
second) and the token arithmetic below is over `ℚ`: on the exact values the
claims exercise the two agree. The `Now` clock becomes explicit time
arguments, in seconds. -/
structure RateLimitOptions where
  Rate : ℚ
  Burst : Int
deriving DecidableEq, Repr

/-- `policies.DefaultRateLimitOptions`. -/
def DefaultRateLimitOptions : RateLimitOptions :=
  { Rate := 10, Burst := 10 }

/-- `policies.applyRateLimitDefaults`: non-positive rate or burst resolve
to the defaults. -/
def applyRateLimitDefaults (options : RateLimitOptions) : RateLimitOptions :=
  let options := if options.Rate ≤ 0 then
    { options with Rate := DefaultRateLimitOptions.Rate } else options
  let options := if options.Burst ≤ 0 then
    { options with Burst := DefaultRateLimitOptions.Burst } else options
  options

/-- The token bucket captured by the `RateLimit` closure:
`tokens` and `lastAt` (the latter in seconds). -/
structure RLState where
  tokens : ℚ
  lastAt : ℚ
deriving DecidableEq, Repr

/-- The bucket at construction time: full (`tokens = Burst`),
`lastAt = opts.Now()`. -/
def rlInit (opts : RateLimitOptions) (now : ℚ) : RLState :=
  { tokens := (opts.Burst : ℚ), lastAt := now }

/-- The `allow` closure of `policies.RateLimit`: one critical section that
refills by `elapsed × Rate` clamped to `Burst`, advances `lastAt`, and
consumes one token when at least one is available. -/
def allow (opts : RateLimitOptions) (now : ℚ) (s : RLState) :
    RLState × Bool :=
  let tokens := s.tokens + (now - s.lastAt) * opts.Rate
  let tokens := if tokens > (opts.Burst : ℚ) then (opts.Burst : ℚ) else tokens
  if tokens ≥ 1 then ({ tokens := tokens - 1, lastAt := now }, true)
  else ({ tokens := tokens, lastAt := now }, false)

/-- One invocation of the handler returned by `policies.RateLimit` (after
defaults): the entry `ctx.Err()` check — which precedes `allow`, leaving
the bucket untouched on cancellation — then admission or the
rate-limit-exceeded rejection. Returns the bucket state, the outcome pair,
and whether the wrapped operation was invoked. -/
def RateLimit {α : Type} (opts : RateLimitOptions) (s : RLState)
    (ctx : GoCtx) (h : Handler α) (now : ℚ) :
    RLState × (Option α × Option GoError) × Bool :=
  match ctx.err with
  | some e => (s, (none, some e), false)
  | none =>
    match allow opts now s with
    | (s2, true) => (s2, h ctx, true)
    | (s2, false) => (s2, (none, some GoError.errRateLimitExceeded), false)

/-- `n` successive rate-limited calls, all at time `t`. -/
def rlSeq {α : Type} (opts : RateLimitOptions) (ctx : GoCtx) (h : Handler α)
    (t : ℚ) : Nat → RLState → RLState
  | 0, s => s
  | n + 1, s => rlSeq opts ctx h t n (RateLimit opts s ctx h t).1

/-- Evaluation of one rate-limited call whose refilled token count `r` does
not exceed the burst (so the clamp is a no-op): pure decrement when at
least one token is available, rejection otherwise. -/
lemma RateLimit_eval {α : Type} (opts : RateLimitOptions) (ctx : GoCtx)
    (hctx : ctx.err = none) (h : Handler α) (now : ℚ) (s : RLState) (r : ℚ)
    (hr : s.tokens + (now - s.lastAt) * opts.Rate = r)
    (hrB : r ≤ (opts.Burst : ℚ)) :
    RateLimit opts s ctx h now =
      if 1 ≤ r then
        ({ tokens := r - 1, lastAt := now }, h ctx, true)
      else ({ tokens := r, lastAt := now },
            (none, some GoError.errRateLimitExceeded), false) := by
  have hnc : ¬ ((opts.Burst : ℚ) < r) := not_lt.mpr hrB
  by_cases h1 : (1 : ℚ) ≤ r
  · simp [RateLimit, allow, hctx, hr, hnc, h1]
  · simp [RateLimit, allow, hctx, hr, hnc, h1]

/-- Draining the bucket at a fixed time: `j` calls from `x` tokens leave
`x - j` tokens while `j ≤ x`. -/
lemma rlSeq_drain {α : Type} (opts : RateLimitOptions) (ctx : GoCtx)
    (hctx : ctx.err = none) (h : Handler α) (t : ℚ) :
    ∀ (j : Nat) (x : ℚ), x ≤ (opts.Burst : ℚ) → (j : ℚ) ≤ x →
      rlSeq opts ctx h t j { tokens := x, lastAt := t }
        = { tokens := x - j, lastAt := t } := by
  intro j
  induction j with
  | zero =>
    intro x _ _
    simp [rlSeq]
  | succ j ih =>
    intro x hxB hjx
    have hx1 : (1 : ℚ) ≤ x := by
      have hj0 : (0 : ℚ) ≤ (j : ℚ) := Nat.cast_nonneg j
      push_cast at hjx
      linarith
    have hstep := RateLimit_eval opts ctx hctx h t
      { tokens := x, lastAt := t } x (by ring) hxB
    rw [if_pos hx1] at hstep
    have hrec := ih (x - 1) (by linarith) (by push_cast at hjx ⊢; linarith)
    calc rlSeq opts ctx h t (j + 1) { tokens := x, lastAt := t }
        = rlSeq opts ctx h t j
            (RateLimit opts { tokens := x, lastAt := t } ctx h t).1 := rfl
      _ = rlSeq opts ctx h t j { tokens := x - 1, lastAt := t } := by
          rw [hstep]
      _ = { tokens := x - (j + 1 : Nat), lastAt := t } := by
          rw [hrec]
          congr 1
          push_cast
          ring

/-- C8: with `Burst = B ≥ 1` and the clock frozen at `t`, the first `B`
calls are admitted — each consuming exactly one token and returning the
wrapped operation's own outcome — the `(B+1)`-th call is rejected with the
rate-limit-exceeded sentinel without invoking the operation, and after
advancing the clock by exactly `1/Rate` seconds exactly one further call is
admitted (the one after it is rejected again). -/
theorem claim_C8 {α : Type} (opts : RateLimitOptions) (ctx : GoCtx)
    (hctx : ctx.err = none) (h : Handler α) (t : ℚ) (B : Nat)
    (hB : opts.Burst = (B : Int)) (hB1 : 1 ≤ B) (hR : 0 < opts.Rate) :
    (∀ j : Nat, j < B →
      RateLimit opts (rlSeq opts ctx h t j (rlInit opts t)) ctx h t
        = ({ tokens := (B : ℚ) - (j + 1), lastAt := t }, h ctx, true)) ∧
    (RateLimit opts (rlSeq opts ctx h t B (rlInit opts t)) ctx h t
        = ({ tokens := 0, lastAt := t },
           (none, some GoError.errRateLimitExceeded), false)) ∧
    (RateLimit opts { tokens := 0, lastAt := t } ctx h (t + 1 / opts.Rate)
        = ({ tokens := 0, lastAt := t + 1 / opts.Rate }, h ctx, true)) ∧
    (RateLimit opts { tokens := 0, lastAt := t + 1 / opts.Rate } ctx h
        (t + 1 / opts.Rate)
        = ({ tokens := 0, lastAt := t + 1 / opts.Rate },
           (none, some GoError.errRateLimitExceeded), false)) := by
  have hBQ : (opts.Burst : ℚ) = (B : ℚ) := by
    rw [hB]
    push_cast
    ring
  have hB1Q : (1 : ℚ) ≤ (B : ℚ) := by exact_mod_cast hB1
  have hinit : rlInit opts t = { tokens := (B : ℚ), lastAt := t } := by
    simp [rlInit, hBQ]
  refine ⟨?_, ?_, ?_, ?_⟩
  · intro j hj
    have hjB : (j : ℚ) + 1 ≤ (B : ℚ) := by exact_mod_cast Nat.succ_le_of_lt hj
    have hj0 : (0 : ℚ) ≤ (j : ℚ) := Nat.cast_nonneg j
    have hseq := rlSeq_drain opts ctx hctx h t j (B : ℚ)
      (by rw [hBQ]) (by linarith)
    rw [hinit, hseq]
    have hstep := RateLimit_eval opts ctx hctx h t
      { tokens := (B : ℚ) - j, lastAt := t } ((B : ℚ) - j) (by ring)
      (by rw [hBQ]; linarith)
    rw [if_pos (by linarith)] at hstep
    rw [hstep]
    have harith : (B : ℚ) - j - 1 = (B : ℚ) - ((j : ℚ) + 1) := by ring
    rw [harith]
  · have hseq := rlSeq_drain opts ctx hctx h t B (B : ℚ)
      (by rw [hBQ]) le_rfl
    rw [hinit, hseq]
    have hstep := RateLimit_eval opts ctx hctx h t
      { tokens := (B : ℚ) - B, lastAt := t } ((B : ℚ) - B) (by ring)
      (by rw [hBQ]; linarith)
    rw [if_neg (by norm_num)] at hstep
    rw [hstep]
    norm_num
  · have hone : (0 : ℚ) + (t + 1 / opts.Rate - t) * opts.Rate = 1 := by
      field_simp
      ring
    have hstep := RateLimit_eval opts ctx hctx h (t + 1 / opts.Rate)
      { tokens := 0, lastAt := t } 1 hone (by rw [hBQ]; linarith)
    rw [if_pos le_rfl] at hstep
    rw [hstep]
    norm_num
  · have hz : (0 : ℚ) + (t + 1 / opts.Rate - (t + 1 / opts.Rate)) * opts.Rate
        = 0 := by ring
    have hstep := RateLimit_eval opts ctx hctx h (t + 1 / opts.Rate)
      { tokens := 0, lastAt := t + 1 / opts.Rate } 0 hz
      (by rw [hBQ]; linarith)
    rw [if_neg (by norm_num)] at hstep
    rw [hstep]

/-- Concrete options for the C8 witness: 1 token per second, burst 2. -/
def rlOptsC8 : RateLimitOptions :=
  { Rate := 1, Burst := 2 }

/-- A concrete handler for the C8 witness. -/
def rlHandC8 : Handler Nat := fun _ => (some 7, none)

/-- Witness for C8 at burst 2 and a frozen clock at 0. -/
theorem claim_C8_witness :
    (RateLimit rlOptsC8
        (rlSeq rlOptsC8 ⟨none⟩ rlHandC8 0 1 (rlInit rlOptsC8 0))
        ⟨none⟩ rlHandC8 0
      = ({ tokens := (((2 : Nat) : ℚ)) - (((1 : Nat) : ℚ) + 1), lastAt := 0 },
         rlHandC8 ⟨none⟩, true)) ∧
    (RateLimit rlOptsC8
        (rlSeq rlOptsC8 ⟨none⟩ rlHandC8 0 2 (rlInit rlOptsC8 0))
        ⟨none⟩ rlHandC8 0
      = ({ tokens := 0, lastAt := 0 },
         (none, some GoError.errRateLimitExceeded), false)) ∧
    (RateLimit rlOptsC8 { tokens := 0, lastAt := 0 } ⟨none⟩ rlHandC8
        (0 + 1 / rlOptsC8.Rate)
      = ({ tokens := 0, lastAt := 0 + 1 / rlOptsC8.Rate },
         rlHandC8 ⟨none⟩, true)) := by
  have hmain := claim_C8 rlOptsC8 ⟨none⟩ rfl rlHandC8 0 2 (by decide)
    (by decide) (by decide)
  exact ⟨hmain.1 1 (by decide), hmain.2.1, hmain.2.2.1⟩

end GoSentry

namespace GoSentry

/-- C7 counterexample: the Timeout policy built with `Duration = -1` is the
bare pass-through, so with an already-cancelled context it still invokes
the wrapped operation and returns the operation's outcome instead of the
cancellation error. -/
theorem claim_C7_cex :
    Timeout (α := Nat) { Duration := -1 } (fun _ => (some 7, none))
        ⟨some GoError.canceled⟩ = (some 7, none) ∧
    ((some 7 : Option Nat), (none : Option GoError))
      ≠ ((none : Option Nat), some GoError.canceled) :=
  ⟨rfl, by decide⟩

/-- C7 (amended): when the invocation context's cancellation signal is
already active at entry, Retry (provided `MaxAttempts ≥ 1` after defaults —
a negative `MaxAttempts` makes the loop body unreachable and yields
`(nil, nil)` instead), the Rate Limiter, the Circuit Breaker, and the
non-disabled Timeout (`Duration ≥ 0`) each return the original cancellation
error unchanged with a nil result, before any policy-specific sentinel,
without invoking the wrapped operation and without mutating any shared
policy state; the disabled Timeout (`Duration < 0`) is exempt, being a bare
pass-through (see the counterexample). -/
theorem claim_C7_amended (ctx : GoCtx) (e : GoError)
    (hctx : ctx.err = some e) :
    (∀ (α : Type) (options : RetryOptions) (jit : Int → Int)
        (h : Nat → Option α × Option GoError),
      1 ≤ (applyDefaults options).MaxAttempts →
      Retry options jit h ctx = some (0, (none, some e))) ∧
    (∀ (α : Type) (opts : RateLimitOptions) (s : RLState) (h : Handler α)
        (now : ℚ),
      RateLimit opts s ctx h now = (s, (none, some e), false)) ∧
    (∀ (α : Type) (opts : CircuitBreakerOptions) (c : CBState)
        (h : Handler α) (tB tA : Int),
      CircuitBreakerCall opts c ctx h tB tA = (c, (none, some e), false)) ∧
    (∀ (α : Type) (options : TimeoutOptions) (h : Handler α),
      0 ≤ options.Duration → Timeout options h ctx = (none, some e)) := by
  refine ⟨?_, ?_, ?_, ?_⟩
  · intro α options jit h hMA
    obtain ⟨m, hm⟩ : ∃ m, (applyDefaults options).MaxAttempts.toNat = m + 1 :=
      ⟨(applyDefaults options).MaxAttempts.toNat - 1, by omega⟩
    show retryAux (applyDefaults options) jit h ctx
      (applyDefaults options).MaxAttempts.toNat 0 none
        = some (0, (none, some e))
    rw [hm, retryAux, hctx]
  · intro α opts s h now
    simp [RateLimit, hctx]
  · intro α opts c h tB tA
    simp [CircuitBreakerCall, hctx]
  · intro α options h hdur
    by_cases h0 : options.Duration = 0
    · simp [Timeout, applyTimeoutDefaults, DefaultTimeoutOptions, h0, hctx]
    · have hnn : ¬ options.Duration < 0 := by omega
      simp [Timeout, applyTimeoutDefaults, h0, hnn, hctx]

/-- Witness for the amended C7 at a concretely cancelled context. -/
theorem claim_C7_witness :
    (Retry (α := Nat)
        { MaxAttempts := 3, InitialDelay := 0, MaxDelay := 0, Backoff := ""
          Jitter := true }
        (fun _ => 0) (fun i => (some i, none)) ⟨some GoError.canceled⟩
      = some (0, (none, some GoError.canceled))) ∧
    (RateLimit (α := Nat) { Rate := 10, Burst := 10 }
        { tokens := 10, lastAt := 0 } ⟨some GoError.canceled⟩
        (fun _ => (some 1, none)) 0
      = ({ tokens := 10, lastAt := 0 },
         (none, some GoError.canceled), false)) ∧
    (CircuitBreakerCall (α := Nat)
        { FailureThreshold := 5, SuccessThreshold := 1, OpenTimeout := 100,
          ShouldTrip := fun _ => true }
        newCircuitBreaker ⟨some GoError.canceled⟩ (fun _ => (some 1, none)) 0 0
      = (newCircuitBreaker, (none, some GoError.canceled), false)) ∧
    (Timeout (α := Nat) { Duration := 50 } (fun _ => (some 1, none))
        ⟨some GoError.canceled⟩ = (none, some GoError.canceled)) := by
  have hmain := claim_C7_amended ⟨some GoError.canceled⟩ GoError.canceled rfl
  exact ⟨hmain.1 Nat _ (fun _ => 0) (fun i => (some i, none)) (by decide),
    hmain.2.1 Nat _ _ (fun _ => (some 1, none)) 0,
    hmain.2.2.1 Nat _ newCircuitBreaker (fun _ => (some 1, none)) 0 0,
    hmain.2.2.2 Nat _ (fun _ => (some 1, none)) (by decide)⟩

end GoSentry
